import Mathlib

/-!
Shallow embedding of the secret-service server's object model
(`src/object/{service,collection,item,session}.rs` and `src/object/mod.rs`)
together with the CBC/PKCS7 secret envelope used by sessions.

Conventions:
* D-Bus object paths are plain strings.
* Rust `HashMap` becomes an association list (`assoc` looks up by key,
  `assocInsert` replaces a binding, `assocErase` removes one); Rust
  `HashSet<OwnedObjectPath>` becomes a duplicate-free list with
  `setInsert` / `setErase`; `HashSet<(String, String)>` (an attribute
  set) becomes a `Finset (String × String)`.
* The external AES-128 block cipher (RustCrypto `aes` crate) is not code
  of this repository; the CBC definitions are parameterised by the keyed
  block-encryption and block-decryption functions `aesEnc`/`aesDec`.
* Rust code that panics (`unwrap`) is embedded as `Option`, with `none`
  for the panic; fallible handlers return `Except Error`.
-/

namespace SecretService

abbrev Path := String

abbrev AttrSet := Finset (String × String)

/-- Lookup in an association list, mirroring `HashMap::get`. -/
def assoc {α : Type} (k : String) : List (String × α) → Option α
  | [] => none
  | (k', v) :: r => if k = k' then some v else assoc k r

/-- Insert-or-replace a binding, mirroring `HashMap::insert`. -/
def assocInsert {α : Type} (k : String) (v : α) (l : List (String × α)) :
    List (String × α) :=
  (k, v) :: l.filter (fun kv => kv.1 ≠ k)

/-- Remove a binding, mirroring `HashMap::remove`. -/
def assocErase {α : Type} (k : String) (l : List (String × α)) :
    List (String × α) :=
  l.filter (fun kv => kv.1 ≠ k)

/-- Insert into a path set, mirroring `HashSet::insert`. -/
def setInsert (p : Path) (l : List Path) : List Path :=
  if p ∈ l then l else p :: l

/-- Remove from a path set, mirroring `HashSet::remove`; also returns
whether the element was present (the `bool` returned by `remove`). -/
def setErase (p : Path) (l : List Path) : List Path :=
  l.filter (fun q => q ≠ p)

/-! ### UTF-8 validity

`Item::new`, `Item::set_secret_with_session` and `Service::open_session`
go through `str::from_utf8` / `String::from_utf8`; this is the standard
RFC 3629 byte-level validity check. -/

/-- A UTF-8 continuation byte: `0x80 ≤ b ≤ 0xBF`. -/
def utf8Cont (b : Nat) : Bool := 0x80 ≤ b && b ≤ 0xBF

/-- RFC 3629 UTF-8 validity of a byte string, as decided by Rust's
`str::from_utf8`. -/
def validUtf8 : List Nat → Bool
  | [] => true
  | b :: r =>
    if b ≤ 0x7F then validUtf8 r
    else if 0xC2 ≤ b && b ≤ 0xDF then
      match r with
      | c1 :: r' => utf8Cont c1 && validUtf8 r'
      | [] => false
    else if b = 0xE0 then
      match r with
      | c1 :: c2 :: r' => (0xA0 ≤ c1 && c1 ≤ 0xBF) && utf8Cont c2 && validUtf8 r'
      | _ => false
    else if (0xE1 ≤ b && b ≤ 0xEC) || b = 0xEE || b = 0xEF then
      match r with
      | c1 :: c2 :: r' => utf8Cont c1 && utf8Cont c2 && validUtf8 r'
      | _ => false
    else if b = 0xED then
      match r with
      | c1 :: c2 :: r' => (0x80 ≤ c1 && c1 ≤ 0x9F) && utf8Cont c2 && validUtf8 r'
      | _ => false
    else if b = 0xF0 then
      match r with
      | c1 :: c2 :: c3 :: r' =>
        (0x90 ≤ c1 && c1 ≤ 0xBF) && utf8Cont c2 && utf8Cont c3 && validUtf8 r'
      | _ => false
    else if 0xF1 ≤ b && b ≤ 0xF3 then
      match r with
      | c1 :: c2 :: c3 :: r' => utf8Cont c1 && utf8Cont c2 && utf8Cont c3 && validUtf8 r'
      | _ => false
    else if b = 0xF4 then
      match r with
      | c1 :: c2 :: c3 :: r' =>
        (0x80 ≤ c1 && c1 ≤ 0x8F) && utf8Cont c2 && utf8Cont c3 && validUtf8 r'
      | _ => false
    else false

/-! ### CBC mode with PKCS7 padding

`Algorithm::encrypt`/`Algorithm::decrypt` in `src/object/session.rs` call
RustCrypto's `cbc::Encryptor/Decryptor<aes::Aes128>` with
`block_padding::Pkcs7`.  The block size is 16 bytes. -/

/-- Byte-wise xor of two equal-length byte strings. -/
def xorBytes (a b : List Nat) : List Nat :=
  List.zipWith (fun x y => Nat.xor x y) a b

/-- Fuel-driven worker for `chunks16` (structural recursion on the fuel
so that the kernel can evaluate it; the fuel is always at least the
length of the list). -/
def chunks16Fuel : Nat → List Nat → List (List Nat)
  | _, [] => []
  | 0, l => [l]
  | f + 1, l => l.take 16 :: chunks16Fuel f (l.drop 16)

/-- Split a byte string into blocks of 16 bytes (the final block may be
shorter if the length is not a multiple of 16). -/
def chunks16 (l : List Nat) : List (List Nat) :=
  chunks16Fuel l.length l

/-- PKCS7 padding: append `k` copies of the byte `k`, where
`k = 16 - len % 16` (so `1 ≤ k ≤ 16`). -/
def pkcs7Pad (p : List Nat) : List Nat :=
  let k := 16 - p.length % 16
  p ++ List.replicate k k

/-- PKCS7 unpadding as performed by `block_padding::Pkcs7`: read the last
byte `k`, require `1 ≤ k ≤ 16`, `k` no longer than the input, and the last
`k` bytes all equal to `k`; strip them.  `none` is the `UnpadError` case. -/
def pkcs7Unpad (p : List Nat) : Option (List Nat) :=
  match p.getLast? with
  | none => none
  | some k =>
    if 1 ≤ k ∧ k ≤ 16 ∧ k ≤ p.length ∧ (p.drop (p.length - k)).all (fun b => b = k)
    then some (p.take (p.length - k))
    else none

/-- CBC encryption over a list of 16-byte blocks with chaining value
`prev`, parameterised by the keyed block cipher `enc`. -/
def cbcEncBlocks (enc : List Nat → List Nat) (prev : List Nat) :
    List (List Nat) → List (List Nat)
  | [] => []
  | b :: bs =>
    let c := enc (xorBytes prev b)
    c :: cbcEncBlocks enc c bs

/-- CBC decryption over a list of ciphertext blocks with chaining value
`prev`, parameterised by the keyed block decryption `dec`. -/
def cbcDecBlocks (dec : List Nat → List Nat) (prev : List Nat) :
    List (List Nat) → List (List Nat)
  | [] => []
  | c :: cs => xorBytes prev (dec c) :: cbcDecBlocks dec c cs

/-- `encrypt_padded_vec_mut::<Pkcs7>`: pad, split into blocks, CBC-chain. -/
def cbcEncrypt (enc : List Nat → List Nat) (iv plaintext : List Nat) : List Nat :=
  (cbcEncBlocks enc iv (chunks16 (pkcs7Pad plaintext))).flatten

/-- `decrypt_padded_vec_mut::<Pkcs7>`: `none` is the `UnpadError` result
(ciphertext empty or not block-aligned, or invalid padding). -/
def cbcDecrypt (dec : List Nat → List Nat) (iv ciphertext : List Nat) :
    Option (List Nat) :=
  if ciphertext.length % 16 = 0 ∧ 0 < ciphertext.length then
    pkcs7Unpad (cbcDecBlocks dec iv (chunks16 ciphertext)).flatten
  else none

/-! ### Sessions (`src/object/session.rs`) -/

/-- The session cipher state: `Plain` or `Dh` holding the 16-byte AES key
derived from the X25519 + HKDF handshake. -/
inductive Algorithm where
  | Plain : Algorithm
  | Dh (aes_key : List Nat) : Algorithm
deriving DecidableEq

/-- The keyed AES-128 block functions come from the external `aes` crate;
all definitions below take them as explicit parameters `aesEnc`/`aesDec`
(key → 16-byte block → 16-byte block). -/
abbrev AesBlockFn := List Nat → List Nat → List Nat

/-- The fixed IV `[0x24; 16]` that `Algorithm::encrypt` uses on every
call (the known IV-freshness defect). -/
def fixedIV : List Nat := List.replicate 16 0x24

/-- `Algorithm::encrypt`: returns `(ciphertext, iv)`; `Plain` passes the
plaintext through with empty parameters, `Dh` runs AES-128-CBC/PKCS7 with
the fixed IV. -/
def Algorithm.encrypt (aesEnc : AesBlockFn) : Algorithm → List Nat → List Nat × List Nat
  | .Plain, plaintext => (plaintext, [])
  | .Dh aes_key, plaintext => (cbcEncrypt (aesEnc aes_key) fixedIV plaintext, fixedIV)

/-- `Algorithm::decrypt`: `Plain` returns the ciphertext verbatim; `Dh`
undoes CBC/PKCS7.  The source calls `.unwrap()` on the padding result, so
`none` here is a panic (abort), not a D-Bus error. -/
def Algorithm.decrypt (aesDec : AesBlockFn) : Algorithm → List Nat → List Nat → Option (List Nat)
  | .Plain, ciphertext, _ => some ciphertext
  | .Dh aes_key, ciphertext, iv => cbcDecrypt (aesDec aes_key) iv ciphertext

/-- A live session: cipher state plus identifier (`Session` struct). -/
structure Session where
  algorithm : Algorithm
  id : String
deriving DecidableEq

/-- `Session::get_object_path`. -/
def Session.get_object_path (s : Session) : Path :=
  "/org/freedesktop/secrets/session/" ++ s.id

/-- `Session::is_encrypted`. -/
def Session.is_encrypted (s : Session) : Bool :=
  match s.algorithm with
  | .Dh _ => true
  | .Plain => false

/-! ### The secret envelope (`src/secret.rs`) -/

/-- The four-field wire value `Secret`. -/
structure Secret where
  session : Path
  value : List Nat
  parameters : List Nat
  content_type : String
deriving DecidableEq

/-! ### Errors (`src/error.rs`, the variants the embedded handlers use) -/

inductive Error where
  | AlgorithmUnsupported (algorithm : String)
  | InvalidArgs (method msg : String)
  | NoSession (object_path : String)
  | NoSuchObject (object : String)
  | IsLocked (object_path : String)
deriving DecidableEq

/-! ### Items (`src/object/item.rs`) -/

/-- The `Item` struct.  The stored secret is a Rust `String`; it is kept
here as its byte string (which `Item::new` has checked to be valid
UTF-8). -/
structure Item where
  attributes : List (String × String)
  created : Nat
  id : String
  label : String
  locked : Bool
  modified : Nat
  parent_path : Path
  secret : List Nat
deriving DecidableEq

/-- `Item::get_object_path`: `<parent>/<id>`. -/
def Item.get_object_path (it : Item) : Path :=
  it.parent_path ++ "/" ++ it.id

/-! ### Collections (`src/object/collection.rs`) -/

/-- The `Collection` struct. -/
structure Collection where
  alias' : Option String
  created : Nat
  id : String
  label : String
  locked : Bool
  items : List Path
  items_with_attributes : List (Path × AttrSet)
  modified : Nat
  parent_path : Path
deriving DecidableEq

/-- `Collection::get_object_path`: the fixed default path when the alias
is `default`, else `/org/freedesktop/secrets/collection/<id>`. -/
def Collection.get_object_path (c : Collection) : Path :=
  if c.alias' = some "default" then "/org/freedesktop/secrets/aliases/default"
  else "/org/freedesktop/secrets/collection/" ++ c.id

/-- `Collection::new`: fresh collection, `locked = true`, the given label
and alias, timestamps set to `now`. -/
def Collection.new (id : String) (label : String) (alias' : Option String)
    (now : Nat) : Collection :=
  { id := id
    alias' := alias'
    created := now
    items := []
    label := label
    locked := true
    items_with_attributes := []
    modified := now
    parent_path := "/org/freedesktop/secrets" }

/-- `Collection::new_default`: alias `default`, label `"default"`,
`locked = true`. -/
def Collection.new_default (id : String) (now : Nat) : Collection :=
  { id := id
    alias' := some "default"
    created := now
    items := []
    label := "default"
    locked := true
    items_with_attributes := []
    modified := now
    parent_path := "/org/freedesktop/secrets" }

/-- `Collection::search_items`: the item paths whose attribute set equals
the query interpreted as a set of pairs. -/
def Collection.search_items (c : Collection) (attributes : List (String × String)) :
    List Path :=
  c.items_with_attributes.filterMap
    (fun kv => if kv.2 = attributes.toFinset then some kv.1 else none)

/-- `Collection::insert_item`: when `replace` is true the source calls
`retain(|_, value| value == &attributes_set)` on the index — keeping the
entries equal to the new attribute set and dropping all others — and then
retains in `items` only the paths still in the index; finally the new
item is inserted into both. -/
def Collection.insert_item (c : Collection) (item_object_path : Path)
    (attributes : List (String × String)) (replace : Bool) : Collection :=
  let attributes_set : AttrSet := attributes.toFinset
  let c1 :=
    if replace then
      let kept := c.items_with_attributes.filter (fun kv => kv.2 = attributes_set)
      { c with
        items_with_attributes := kept
        items := c.items.filter (fun p => (assoc p kept).isSome) }
    else c
  { c1 with
    items := setInsert item_object_path c1.items
    items_with_attributes := assocInsert item_object_path attributes_set c1.items_with_attributes }

/-! ### The service and the object server (`src/object/service.rs`,
`src/object/mod.rs`)

The zbus `ObjectServer` path → object registry is embedded as three
association lists, one per object kind registered by the core. -/

/-- The `Service` struct: the alias map and the set of collection paths. -/
structure Service where
  aliases : List (String × Path)
  collections : List Path
deriving DecidableEq

/-- The object server's registry of live objects. -/
structure World where
  collections : List (Path × Collection)
  items : List (Path × Item)
  sessions : List (Path × Session)
deriving DecidableEq

/-- `DbusObject::serve_at` via `ObjectServer::at`: registers the object
unless one is already present; the `Bool` is zbus's was-added flag. -/
def registerCollection (w : World) (p : Path) (c : Collection) : World × Bool :=
  if (assoc p w.collections).isSome then (w, false)
  else ({ w with collections := (p, c) :: w.collections }, true)

def registerItem (w : World) (p : Path) (it : Item) : World × Bool :=
  if (assoc p w.items).isSome then (w, false)
  else ({ w with items := (p, it) :: w.items }, true)

def registerSession (w : World) (p : Path) (s : Session) : World × Bool :=
  if (assoc p w.sessions).isSome then (w, false)
  else ({ w with sessions := (p, s) :: w.sessions }, true)

/-- Outcome of a handler whose Rust body may also panic (`unwrap`):
`panic` is the aborted call, `err` the D-Bus error reply. -/
inductive Outcome (α : Type) where
  | ok (a : α)
  | err (e : Error)
  | panic
deriving DecidableEq

/-! ### Item operations (`src/object/item.rs`) -/

/-- The plaintext computation shared by `Item::new` and
`Item::set_secret_with_session`: decrypt when the session is encrypted,
then `String::from_utf8(..).unwrap()`.  `none` is a panic — either the
`.unwrap()` inside `Algorithm::decrypt` on invalid padding, or the
`.unwrap()` on invalid UTF-8. -/
def decodeSecretValue (aesDec : AesBlockFn) (s : Session) (secret : Secret) :
    Option (List Nat) :=
  if s.is_encrypted then
    match s.algorithm.decrypt aesDec secret.value secret.parameters with
    | none => none
    | some plaintext => if validUtf8 plaintext then some plaintext else none
  else if validUtf8 secret.value then some secret.value else none

/-- `ItemReadWriteProperties`. -/
structure ItemReadWriteProperties where
  attributes : List (String × String)
  label : String

/-- `Item::new`: looks up the secret's session (absent → `NoSession`),
decodes the incoming value (panicking on bad padding or non-UTF-8), and
builds the item with `locked = true` and both timestamps `now`. -/
def Item.new (aesDec : AesBlockFn) (w : World) (id : String) (secret : Secret)
    (label : String) (attributes : List (String × String)) (c : Collection)
    (now : Nat) : Outcome Item :=
  match assoc secret.session w.sessions with
  | none => .err (.NoSession secret.session)
  | some s =>
    match decodeSecretValue aesDec s secret with
    | none => .panic
    | some plaintext =>
      .ok { attributes := attributes
            created := now
            id := id
            label := label
            locked := true
            modified := now
            parent_path := c.get_object_path
            secret := plaintext }

/-- `Item::get_secret_with_session`: encode the stored plaintext through
the given session (ciphertext + IV when encrypted, verbatim otherwise). -/
def Item.get_secret_with_session (aesEnc : AesBlockFn) (it : Item) (s : Session) :
    Secret :=
  if s.is_encrypted then
    let e := s.algorithm.encrypt aesEnc it.secret
    { session := s.get_object_path
      value := e.1
      parameters := e.2
      content_type := "text/plain; charset=utf8" }
  else
    { session := s.get_object_path
      value := it.secret
      parameters := []
      content_type := "text/plain; charset=utf8" }

/-- `Item::set_secret_with_session`: decode and replace the stored
plaintext (`none` is the panic on bad padding / non-UTF-8). -/
def Item.set_secret_with_session (aesDec : AesBlockFn) (it : Item)
    (secret : Secret) (s : Session) : Option Item :=
  match decodeSecretValue aesDec s secret with
  | none => none
  | some plaintext => some { it with secret := plaintext }

/-- `Item::get_secret` (the `GetSecret` method): look up the session at
the given path — `NoSession` if absent — and encode the secret through
it.  No locked flag is consulted. -/
def Item.get_secret (aesEnc : AesBlockFn) (w : World) (it : Item)
    (session : Path) : Except Error Secret :=
  match assoc session w.sessions with
  | none => .error (.NoSession session)
  | some s => .ok (it.get_secret_with_session aesEnc s)

/-! ### Collection operations (`src/object/collection.rs`) -/

/-- `Collection::create_item`: build the item (propagating `NoSession`
and panics), register it, and insert it into the child set and attribute
index via `Collection.insert_item`.  Returns the item path and the
prompt sentinel. -/
def Collection.create_item (aesDec : AesBlockFn) (w : World) (c : Collection)
    (properties : ItemReadWriteProperties) (secret : Secret) (replace : Bool)
    (item_id : String) (now : Nat) : Outcome ((World × Collection) × (Path × Path)) :=
  match Item.new aesDec w item_id secret properties.label properties.attributes c now with
  | .err e => .err e
  | .panic => .panic
  | .ok new_item =>
    let item_path := new_item.get_object_path
    let reg := registerItem w item_path new_item
    let c' := c.insert_item item_path properties.attributes replace
    .ok ((reg.1, c'), (item_path, "/"))

/-- The item-deletion loop at the start of `Collection::delete`: each
live child is unregistered from the object server and removed from the
parent collection's child set (`Item::delete` without its signal). -/
def deleteItemsLoop (w : World) (c : Collection) : List Path → World × Collection
  | [] => (w, c)
  | ip :: rest =>
    match assoc ip w.items with
    | none => deleteItemsLoop w c rest
    | some it =>
      deleteItemsLoop
        { w with items := assocErase it.get_object_path w.items }
        { c with items := setErase it.get_object_path c.items }
        rest

/-- `Collection::delete`: delete every child item, unregister this
collection, and remove its path from the parent service's collection set
(`DbusChildObject::remove_from_parent`).  The alias map is not touched.
Returns the prompt sentinel. -/
def Collection.delete (w : World) (svc : Service) (c : Collection) :
    (World × Collection × Service) × Path :=
  let step := deleteItemsLoop w c c.items
  let w1 := { step.1 with
    collections := assocErase (step.2.get_object_path) step.1.collections }
  let svc' := { svc with
    collections := setErase (step.2.get_object_path) svc.collections }
  ((w1, step.2, svc'), "/")

/-! ### Service operations (`src/object/service.rs`) -/

/-- `CollectionReadWriteProperties`. -/
structure CollectionReadWriteProperties where
  label : String

/-- `Service::create_collection`: a non-empty alias already in the map
short-circuits to the existing path; otherwise a fresh collection is
constructed (`new_default` when the alias is `default` — note that this
ignores the supplied label), registered, inserted into the collection
set, and the alias map updated when an alias was given.  `collection_id`
stands for the freshly generated UUID and `now` for the clock reading. -/
def Service.create_collection (svc : Service) (w : World)
    (properties : CollectionReadWriteProperties) (alias' : String)
    (collection_id : String) (now : Nat) : (Service × World) × (Path × Path) :=
  match (if alias' ≠ "" then assoc alias' svc.aliases else none) with
  | some collection_path => ((svc, w), (collection_path, "/"))
  | none =>
    let collection_alias := if alias' ≠ "" then some alias' else none
    let new_collection :=
      if collection_alias = some "default" then Collection.new_default collection_id now
      else Collection.new collection_id properties.label collection_alias now
    let collection_path := new_collection.get_object_path
    let w' := (registerCollection w collection_path new_collection).1
    let svc' := { svc with
      collections := setInsert collection_path svc.collections
      aliases :=
        match collection_alias with
        | some a => assocInsert a collection_path svc.aliases
        | none => svc.aliases }
    ((svc', w'), (collection_path, "/"))

/-- `Service::open_session`: `plain` rejects input that parses as
non-empty UTF-8 (note: non-UTF-8 input skips the check); the DH
algorithm requires exactly 32 bytes of key material and derives the
session key through the external X25519+HKDF handshake, abstracted here
as `dhDerive : client public key ↦ (aes key, server public key)`; any
other algorithm string is `AlgorithmUnsupported`.  On success the fresh
session is registered and its path returned. -/
def Service.open_session (dhDerive : List Nat → List Nat × List Nat) (w : World)
    (algorithm : String) (input : List Nat) (session_id : String) :
    Except Error (World × List Nat × Path) :=
  if algorithm = "plain" then
    if validUtf8 input && !input.isEmpty then
      .error (.InvalidArgs "OpenSession"
        "Expected input to be an empty string when requesting a 'plain' session.")
    else
      let new_session : Session := { algorithm := .Plain, id := session_id }
      let reg := registerSession w new_session.get_object_path new_session
      .ok (reg.1, [], new_session.get_object_path)
  else if algorithm = "dh-ietf1024-sha256-aes128-cbc-pkcs7" then
    if input.length = 32 then
      let kd := dhDerive input
      let new_session : Session := { algorithm := .Dh kd.1, id := session_id }
      let reg := registerSession w new_session.get_object_path new_session
      .ok (reg.1, kd.2, new_session.get_object_path)
    else .error (.InvalidArgs "OpenSession" "Invalid key length")
  else .error (.AlgorithmUnsupported algorithm)

/-- The inner loop of `Service::search_items` over one collection's
matches: look each item path up in the registry and push the live ones
onto the `unlocked` or `locked` list according to the item's own locked
flag (the collection's flag is not consulted). -/
def searchItemsPartitionLoop (w : World) : List Path → List Path × List Path
  | [] => ([], [])
  | ip :: rest =>
    let tail := searchItemsPartitionLoop w rest
    match assoc ip w.items with
    | none => tail
    | some it =>
      if it.locked then (tail.1, it.get_object_path :: tail.2)
      else (it.get_object_path :: tail.1, tail.2)

/-- The outer loop of `Service::search_items` over the service's
collection paths. -/
def searchItemsCollectionsLoop (w : World) (attributes : List (String × String)) :
    List Path → List Path × List Path
  | [] => ([], [])
  | cp :: rest =>
    let tail := searchItemsCollectionsLoop w attributes rest
    match assoc cp w.collections with
    | none => tail
    | some c =>
      let here := searchItemsPartitionLoop w (c.search_items attributes)
      (here.1 ++ tail.1, here.2 ++ tail.2)

/-- `Service::search_items`: iterate all live collections, ask each for
matching items, and split the live matches into `(unlocked, locked)` by
the item's locked flag. -/
def Service.search_items (svc : Service) (w : World)
    (attributes : List (String × String)) : List Path × List Path :=
  searchItemsCollectionsLoop w attributes svc.collections

/-! ### Concrete fixtures used by the counterexample/failing-input
theorems below -/

/-- Identity block cipher standing in for a concrete AES instance when a
closed theorem needs an evaluable cipher (it satisfies the block-cipher
laws, which is all the repository code relies on). -/
def idCipher : AesBlockFn := fun _ b => b

/-- A 16-byte all-zero AES key. -/
def zeroKey : List Nat := List.replicate 16 0

/-- A locked collection holding one matching item (C1 fixture). -/
def exCollectionC1 : Collection :=
  { alias' := none
    created := 0
    id := "c1"
    label := "work"
    locked := true
    items := ["/org/freedesktop/secrets/collection/c1/i1"]
    items_with_attributes := [("/org/freedesktop/secrets/collection/c1/i1", [("k", "v")].toFinset)]
    modified := 0
    parent_path := "/org/freedesktop/secrets" }

/-- An unlocked item inside the locked collection (C1 fixture). -/
def exItemC1 : Item :=
  { attributes := [("k", "v")]
    created := 0
    id := "i1"
    label := "L"
    locked := false
    modified := 0
    parent_path := "/org/freedesktop/secrets/collection/c1"
    secret := [115] }

def exWorldC1 : World :=
  { collections := [("/org/freedesktop/secrets/collection/c1", exCollectionC1)]
    items := [("/org/freedesktop/secrets/collection/c1/i1", exItemC1)]
    sessions := [] }

def exServiceC1 : Service :=
  { aliases := []
    collections := ["/org/freedesktop/secrets/collection/c1"] }

/-- An aliased collection with no items (C2 fixture). -/
def exCollectionC2 : Collection :=
  { alias' := some "work"
    created := 0
    id := "abc123"
    label := "work"
    locked := true
    items := []
    items_with_attributes := []
    modified := 0
    parent_path := "/org/freedesktop/secrets" }

def exPathC2 : Path := "/org/freedesktop/secrets/collection/abc123"

def exServiceC2 : Service :=
  { aliases := [("work", exPathC2)]
    collections := [exPathC2] }

def exWorldC2 : World :=
  { collections := [(exPathC2, exCollectionC2)]
    items := []
    sessions := [] }

/-- A collection with two items of different attribute sets (C3 fixture):
`A` carries `{a:1}`, `B` carries `{b:2}`. -/
def exCollectionC3 : Collection :=
  { alias' := none
    created := 0
    id := "c3"
    label := "c3"
    locked := true
    items := ["/org/freedesktop/secrets/collection/c3/A",
              "/org/freedesktop/secrets/collection/c3/B"]
    items_with_attributes :=
      [("/org/freedesktop/secrets/collection/c3/A", [("a", "1")].toFinset),
       ("/org/freedesktop/secrets/collection/c3/B", [("b", "2")].toFinset)]
    modified := 0
    parent_path := "/org/freedesktop/secrets" }

/-- A Dh session (C4 fixture). -/
def exSessionC4 : Session := { algorithm := .Dh zeroKey, id := "s4" }

/-- A secret whose ciphertext decrypts (under `idCipher`) to a block with
an invalid PKCS7 padding byte `0`: value and parameters are both
`[0x24; 16]`, so the CBC xor step yields all zeros (C4 fixture). -/
def exSecretC4 : Secret :=
  { session := "/org/freedesktop/secrets/session/s4"
    value := List.replicate 16 0x24
    parameters := List.replicate 16 0x24
    content_type := "text/plain; charset=utf8" }

def exWorldC4 : World :=
  { collections := []
    items := []
    sessions := [("/org/freedesktop/secrets/session/s4", exSessionC4)] }

def exCollectionC4 : Collection :=
  { alias' := none
    created := 0
    id := "c4"
    label := "c4"
    locked := true
    items := []
    items_with_attributes := []
    modified := 0
    parent_path := "/org/freedesktop/secrets" }

def exItemC4 : Item :=
  { attributes := []
    created := 0
    id := "i4"
    label := "L"
    locked := false
    modified := 0
    parent_path := "/org/freedesktop/secrets/collection/c4"
    secret := [115] }

/-! ### Claim theorems -/

/-- C1 (counterexample): a live collection whose `locked` flag is `true`
holds a live item whose own `locked` flag is `false`; `Service::search_items`
places that item's path in the *unlocked* list, although the claim says an
item in a locked parent collection must be placed in the locked list. -/
theorem c1_search_items_counterexample :
    assoc "/org/freedesktop/secrets/collection/c1" exWorldC1.collections =
        some exCollectionC1 ∧
    exCollectionC1.locked = true ∧
    assoc "/org/freedesktop/secrets/collection/c1/i1" exWorldC1.items = some exItemC1 ∧
    exItemC1.locked = false ∧
    Service.search_items exServiceC1 exWorldC1 [("k", "v")] =
      (["/org/freedesktop/secrets/collection/c1/i1"], []) := by
  refine ⟨rfl, rfl, rfl, rfl, ?_⟩
  decide

/-- C2 (failing input): deleting the collection aliased `work` removes its
path from the service's collection set but leaves the `work` entry in the
alias map pointing at the now-unregistered path, breaking the alias-map
invariant the claim states. -/
theorem c2_delete_leaves_dangling_alias :
    assoc "work" (Collection.delete exWorldC2 exServiceC2 exCollectionC2).1.2.2.aliases =
        some exPathC2 ∧
    exPathC2 ∉ (Collection.delete exWorldC2 exServiceC2 exCollectionC2).1.2.2.collections ∧
    assoc exPathC2 (Collection.delete exWorldC2 exServiceC2 exCollectionC2).1.1.collections =
        none := by
  decide

/-- C3 (failing input): `CreateItem` with `replace = true` and attribute
set `{a:1}` keeps the matching existing item `A` and *removes* the
non-matching item `B` — the opposite of the claim, which requires `A` to
be removed and `B` to remain.  (`insert_item` is the replace logic that
`create_item` invokes.) -/
theorem c3_replace_keeps_matches_and_drops_rest :
    assoc "/org/freedesktop/secrets/collection/c3/A"
        (Collection.insert_item exCollectionC3
          "/org/freedesktop/secrets/collection/c3/N" [("a", "1")] true).items_with_attributes =
      some ([("a", "1")].toFinset) ∧
    "/org/freedesktop/secrets/collection/c3/A" ∈
      (Collection.insert_item exCollectionC3
        "/org/freedesktop/secrets/collection/c3/N" [("a", "1")] true).items ∧
    assoc "/org/freedesktop/secrets/collection/c3/B"
        (Collection.insert_item exCollectionC3
          "/org/freedesktop/secrets/collection/c3/N" [("a", "1")] true).items_with_attributes =
      none ∧
    "/org/freedesktop/secrets/collection/c3/B" ∉
      (Collection.insert_item exCollectionC3
        "/org/freedesktop/secrets/collection/c3/N" [("a", "1")] true).items ∧
    "/org/freedesktop/secrets/collection/c3/N" ∈
      (Collection.insert_item exCollectionC3
        "/org/freedesktop/secrets/collection/c3/N" [("a", "1")] true).items := by
  decide

/-- C4 (failing input): on a Dh session, a ciphertext whose CBC/PKCS7
decryption has an invalid padding byte makes both decoding operations
panic (`Algorithm::decrypt` calls `.unwrap()` on the padding result):
`Item::new` (the `CreateItem` decode) aborts and
`Item::set_secret_with_session` (the `SetSecret` decode) aborts, instead
of failing with the `InvalidArgs` error the claim requires. -/
theorem c4_bad_padding_panics_instead_of_invalid_args :
    Item.new idCipher exWorldC4 "i" exSecretC4 "L" [] exCollectionC4 0 = .panic ∧
    Item.set_secret_with_session idCipher exItemC4 exSecretC4 exSessionC4 = none ∧
    Algorithm.decrypt idCipher (.Dh zeroKey) exSecretC4.value exSecretC4.parameters =
        none := by
  decide

/-- C5 (failing input): `Algorithm::encrypt` on a Dh session returns the
same constant IV `[0x24; 16]` on every call — two calls on different
plaintexts return identical IVs, refuting the claimed per-call
freshness. -/
theorem c5_iv_is_the_same_constant_on_every_call :
    (Algorithm.encrypt idCipher (.Dh zeroKey) [1]).2 = List.replicate 16 0x24 ∧
    (Algorithm.encrypt idCipher (.Dh zeroKey) [2]).2 = List.replicate 16 0x24 ∧
    (Algorithm.encrypt idCipher (.Dh zeroKey) [1]).2 =
      (Algorithm.encrypt idCipher (.Dh zeroKey) [2]).2 := by
  decide

/-- A live item with locked flag `lk` whose attribute set matches the
query, reachable through one of the service's live collectionseen by
`Service::search_items`. -/
def searchHit (svc : Service) (w : World) (attributes : List (String × String))
    (p : Path) (lk : Bool) : Prop :=
  ∃ cp ∈ svc.collections, ∃ c, assoc cp w.collections = some c ∧
    ∃ ip ∈ c.search_items attributes, ∃ it, assoc ip w.items = some it ∧
      it.locked = lk ∧ p = it.get_object_path

/-- Membership in the unlocked half of the per-collection partition
loop. -/
theorem mem_searchItemsPartitionLoop_fst (w : World) (l : List Path) (p : Path) :
    p ∈ (searchItemsPartitionLoop w l).1 ↔
      ∃ ip ∈ l, ∃ it, assoc ip w.items = some it ∧ it.locked = false ∧
        p = it.get_object_path := by
  induction l with
  | nil => simp [searchItemsPartitionLoop]
  | cons ip rest ih =>
    simp only [searchItemsPartitionLoop]
    cases hx : assoc ip w.items with
    | none => simp [hx, ih]
    | some it =>
      by_cases hl : it.locked
      · simp [hx, hl, ih]
      · simp [hx, hl, ih]

/-- Membership in the locked half of the per-collection partition
loop. -/
theorem mem_searchItemsPartitionLoop_snd (w : World) (l : List Path) (p : Path) :
    p ∈ (searchItemsPartitionLoop w l).2 ↔
      ∃ ip ∈ l, ∃ it, assoc ip w.items = some it ∧ it.locked = true ∧
        p = it.get_object_path := by
  induction l with
  | nil => simp [searchItemsPartitionLoop]
  | cons ip rest ih =>
    simp only [searchItemsPartitionLoop]
    cases hx : assoc ip w.items with
    | none => simp [hx, ih]
    | some it =>
      by_cases hl : it.locked
      · simp [hx, hl, ih]
      · simp [hx, hl, ih]

/-- Membership in the unlocked half of the cross-collection loop. -/
theorem mem_searchItemsCollectionsLoop_fst (w : World)
    (attributes : List (String × String)) (cl : List Path) (p : Path) :
    p ∈ (searchItemsCollectionsLoop w attributes cl).1 ↔
      ∃ cp ∈ cl, ∃ c, assoc cp w.collections = some c ∧
        ∃ ip ∈ c.search_items attributes, ∃ it, assoc ip w.items = some it ∧
          it.locked = false ∧ p = it.get_object_path := by
  induction cl with
  | nil => simp [searchItemsCollectionsLoop]
  | cons cp rest ih =>
    simp only [searchItemsCollectionsLoop]
    cases hc : assoc cp w.collections with
    | none => simp [hc, ih]
    | some c =>
      simp [hc, List.mem_append, mem_searchItemsPartitionLoop_fst, ih]

/-- Membership in the locked half of the cross-collection loop. -/
theorem mem_searchItemsCollectionsLoop_snd (w : World)
    (attributes : List (String × String)) (cl : List Path) (p : Path) :
    p ∈ (searchItemsCollectionsLoop w attributes cl).2 ↔
      ∃ cp ∈ cl, ∃ c, assoc cp w.collections = some c ∧
        ∃ ip ∈ c.search_items attributes, ∃ it, assoc ip w.items = some it ∧
          it.locked = true ∧ p = it.get_object_path := by
  induction cl with
  | nil => simp [searchItemsCollectionsLoop]
  | cons cp rest ih =>
    simp only [searchItemsCollectionsLoop]
    cases hc : assoc cp w.collections with
    | none => simp [hc, ih]
    | some c =>
      simp [hc, List.mem_append, mem_searchItemsPartitionLoop_snd, ih]

/-- C1 (amended): `Service.SearchItems` places a matching live item in
the unlocked list exactly when the item's own locked flag is false, and
in the locked list exactly when it is true — the parent collection's
locked flag plays no part in the partition. -/
theorem c1_search_items_amended (svc : Service) (w : World)
    (attributes : List (String × String)) (p : Path) :
    (p ∈ (Service.search_items svc w attributes).1 ↔
      searchHit svc w attributes p false) ∧
    (p ∈ (Service.search_items svc w attributes).2 ↔
      searchHit svc w attributes p true) :=
  ⟨mem_searchItemsCollectionsLoop_fst w attributes svc.collections p,
   mem_searchItemsCollectionsLoop_snd w attributes svc.collections p⟩

/-- Looking up the key just inserted by `assocInsert` returns the new
value (the binding is placed at the head). -/
theorem assoc_assocInsert_self {α : Type} (k : String) (v : α)
    (l : List (String × α)) : assoc k (assocInsert k v l) = some v := by
  simp [assoc, assocInsert]

/-- C7 (counterexample): the single byte `0xFF` is a non-empty input, yet
`OpenSession("plain", [0xFF])` succeeds — the emptiness check only runs
when the input parses as UTF-8 — returning the empty output and a fresh
session, instead of the `InvalidArgs` failure the claim requires for
every non-empty input. -/
theorem c7_nonempty_nonutf8_input_succeeds :
    ([0xFF] : List Nat) ≠ [] ∧
    Service.open_session (fun k => (k, k))
        { collections := [], items := [], sessions := [] } "plain" [0xFF] "s1" =
      .ok ({ collections := [], items := [],
             sessions := [("/org/freedesktop/secrets/session/s1",
                           { algorithm := .Plain, id := "s1" })] },
           [], "/org/freedesktop/secrets/session/s1") := by
  exact ⟨by decide, rfl⟩

/-- C7 (amended): `OpenSession` with algorithm `plain` fails with
`InvalidArgs` exactly when the input is a *valid-UTF-8, non-empty* byte
string; for every other input (empty, or not valid UTF-8) it succeeds,
returning the empty byte string as output and registering a fresh plain
session at the returned path. -/
theorem c7_open_session_plain_amended (dhDerive : List Nat → List Nat × List Nat)
    (w : World) (input : List Nat) (session_id : String)
    (hfresh : assoc ("/org/freedesktop/secrets/session/" ++ session_id) w.sessions = none) :
    (validUtf8 input = true ∧ input ≠ [] →
      Service.open_session dhDerive w "plain" input session_id =
        .error (.InvalidArgs "OpenSession"
          "Expected input to be an empty string when requesting a 'plain' session.")) ∧
    (validUtf8 input = false ∨ input = [] →
      Service.open_session dhDerive w "plain" input session_id =
        .ok ({ w with sessions :=
                 ("/org/freedesktop/secrets/session/" ++ session_id,
                  { algorithm := .Plain, id := session_id }) :: w.sessions },
             [], "/org/freedesktop/secrets/session/" ++ session_id)) := by
  constructor
  · rintro ⟨hv, hne⟩
    have hni : input.isEmpty = false := by
      cases input with
      | nil => exact absurd rfl hne
      | cons a l => rfl
    have hb : (validUtf8 input && !input.isEmpty) = true := by rw [hv, hni]; rfl
    simp [Service.open_session, hb]
  · rintro (hv | he)
    · have hb : (validUtf8 input && !input.isEmpty) = false := by rw [hv]; rfl
      simp [Service.open_session, hb, Session.get_object_path, registerSession, hfresh]
    · subst he
      have hb : (validUtf8 [] && !([] : List Nat).isEmpty) = false := by decide
      simp [Service.open_session, hb, Session.get_object_path, registerSession, hfresh]

/-- C7 (witness for the amended theorem): at the empty input on an empty
registry the amended theorem yields the successful result. -/
theorem c7_open_session_plain_amended_witness :
    Service.open_session (fun k => (k, k))
        { collections := [], items := [], sessions := [] } "plain" [] "s1" =
      .ok ({ collections := [], items := [],
             sessions := [("/org/freedesktop/secrets/session/s1",
                           { algorithm := .Plain, id := "s1" })] },
           [], "/org/freedesktop/secrets/session/s1") :=
  (c7_open_session_plain_amended (fun k => (k, k))
      { collections := [], items := [], sessions := [] } [] "s1" (by decide)).2
    (Or.inr rfl)

/-- C8: `CreateCollection` is idempotent in a non-empty alias.  When the
alias is already mapped the call returns the mapped path with prompt `/`
and leaves the service and the object-server registry untouched; and a
second call with the same non-empty alias (whatever properties, fresh id
and clock it gets) returns the same path as the first while changing
nothing. -/
theorem c8_create_collection_alias_idempotent (svc : Service) (w : World)
    (p1 p2 : CollectionReadWriteProperties) (alias' : String)
    (id1 id2 : String) (t1 t2 : Nat) (h : alias' ≠ "") :
    (∀ q, assoc alias' svc.aliases = some q →
      Service.create_collection svc w p1 alias' id1 t1 = ((svc, w), (q, "/"))) ∧
    Service.create_collection
        (Service.create_collection svc w p1 alias' id1 t1).1.1
        (Service.create_collection svc w p1 alias' id1 t1).1.2 p2 alias' id2 t2 =
      (((Service.create_collection svc w p1 alias' id1 t1).1.1,
        (Service.create_collection svc w p1 alias' id1 t1).1.2),
       ((Service.create_collection svc w p1 alias' id1 t1).2.1, "/")) := by
  have hshort : ∀ (p : CollectionReadWriteProperties) (i : String) (t : Nat) (q : Path)
      (s : Service) (wo : World), assoc alias' s.aliases = some q →
      Service.create_collection s wo p alias' i t = ((s, wo), (q, "/")) := by
    intro p i t q s wo hq
    simp [Service.create_collection, h, hq]
  refine ⟨fun q hq => hshort p1 id1 t1 q svc w hq, ?_⟩
  cases hq : assoc alias' svc.aliases with
  | some q =>
    rw [hshort p1 id1 t1 q svc w hq]
    exact hshort p2 id2 t2 q svc w hq
  | none =>
    have hkey : assoc alias' (Service.create_collection svc w p1 alias' id1 t1).1.1.aliases =
        some (Service.create_collection svc w p1 alias' id1 t1).2.1 := by
      simp [Service.create_collection, h, hq, assoc_assocInsert_self]
    exact hshort p2 id2 t2 _ _ _ hkey

/-- C8 (witness): on an empty service with alias `mine`, the second call
returns the path the first call created and leaves the state of the first
call unchanged. -/
theorem c8_create_collection_alias_idempotent_witness :
    Service.create_collection
        (Service.create_collection { aliases := [], collections := [] }
            { collections := [], items := [], sessions := [] }
            { label := "l1" } "mine" "idA" 0).1.1
        (Service.create_collection { aliases := [], collections := [] }
            { collections := [], items := [], sessions := [] }
            { label := "l1" } "mine" "idA" 0).1.2 { label := "l2" } "mine" "idB" 1 =
      (((Service.create_collection { aliases := [], collections := [] }
            { collections := [], items := [], sessions := [] }
            { label := "l1" } "mine" "idA" 0).1.1,
        (Service.create_collection { aliases := [], collections := [] }
            { collections := [], items := [], sessions := [] }
            { label := "l1" } "mine" "idA" 0).1.2),
       ((Service.create_collection { aliases := [], collections := [] }
            { collections := [], items := [], sessions := [] }
            { label := "l1" } "mine" "idA" 0).2.1, "/")) :=
  (c8_create_collection_alias_idempotent { aliases := [], collections := [] }
      { collections := [], items := [], sessions := [] }
      { label := "l1" } { label := "l2" } "mine" "idA" "idB" 0 1 (by decide)).2

/-- C9 (counterexample): `CreateCollection` with the unmapped alias
`default` and supplied label `my-label` constructs the collection through
`Collection::new_default`, whose label is the literal `default`, not the
supplied label — refuting the claim for the alias `default`. -/
theorem c9_default_alias_ignores_supplied_label :
    (Service.create_collection { aliases := [], collections := [] }
        { collections := [], items := [], sessions := [] }
        { label := "my-label" } "default" "id9" 7).2.1 =
      "/org/freedesktop/secrets/aliases/default" ∧
    assoc "/org/freedesktop/secrets/aliases/default"
        (Service.create_collection { aliases := [], collections := [] }
            { collections := [], items := [], sessions := [] }
            { label := "my-label" } "default" "id9" 7).1.2.collections =
      some (Collection.new_default "id9" 7) ∧
    (Collection.new_default "id9" 7).label = "default" ∧
    ("default" : String) ≠ "my-label" := by
  refine ⟨rfl, rfl, rfl, by decide⟩

/-- Shape of `Service.create_collection` when the alias is not already
mapped: the fresh collection is constructed, registered and recorded. -/
theorem create_collection_unmapped_eq (svc : Service) (w : World)
    (properties : CollectionReadWriteProperties) (alias' : String)
    (collection_id : String) (now : Nat)
    (hA : (if alias' ≠ "" then assoc alias' svc.aliases else none) = none) :
    Service.create_collection svc w properties alias' collection_id now =
      (let collection_alias := if alias' ≠ "" then some alias' else none
       let new_collection :=
         if collection_alias = some "default" then Collection.new_default collection_id now
         else Collection.new collection_id properties.label collection_alias now
       let collection_path := new_collection.get_object_path
       (({ svc with
            collections := setInsert collection_path svc.collections
            aliases := match collection_alias with
              | some a => assocInsert a collection_path svc.aliases
              | none => svc.aliases },
         (registerCollection w collection_path new_collection).1),
        (collection_path, "/"))) := by
  simp only [Service.create_collection, hA]

/-- Registering an object at a fresh path makes it the one looked up at
that path afterwards. -/
theorem assoc_register_self (w : World) (p : Path) (c : Collection)
    (h : assoc p w.collections = none) :
    assoc p ((registerCollection w p c).1).collections = some c := by
  simp [registerCollection, h, assoc]

/-- Both collection constructors set `locked = true`. -/
theorem chooseCollection_locked (ca : Option String) (cid lbl : String) (now : Nat) :
    (if ca = some "default" then Collection.new_default cid now
     else Collection.new cid lbl ca now).locked = true := by
  split <;> rfl

/-- C9 (amended): for every `CreateCollection` call whose alias is not
already mapped (and whose derived path is not already registered), the
constructed collection has `locked = true`, and its label equals the
supplied label for every alias *except* `default`, for which the label is
the literal `default`. -/
theorem c9_create_collection_amended (svc : Service) (w : World)
    (properties : CollectionReadWriteProperties) (alias' : String)
    (collection_id : String) (now : Nat)
    (halias : alias' = "" ∨ assoc alias' svc.aliases = none)
    (hfresh : assoc (Service.create_collection svc w properties alias' collection_id now).2.1
        w.collections = none) :
    ∃ c, assoc (Service.create_collection svc w properties alias' collection_id now).2.1
          (Service.create_collection svc w properties alias' collection_id now).1.2.collections =
        some c ∧
      c.locked = true ∧
      c.label = (if alias' = "default" then "default" else properties.label) := by
  have hA : (if alias' ≠ "" then assoc alias' svc.aliases else none) = none := by
    rcases halias with he | hn
    · simp [he]
    · simp [hn]
  rw [create_collection_unmapped_eq svc w properties alias' collection_id now hA] at hfresh ⊢
  dsimp only at hfresh ⊢
  refine ⟨_, assoc_register_self w _ _ hfresh, chooseCollection_locked _ _ _ _, ?_⟩
  by_cases hd : alias' = "default"
  · subst hd
    rw [if_pos (show ("default" : String) ≠ "" from by decide), if_pos rfl,
      if_pos rfl]
    rfl
  · by_cases he : alias' = ""
    · subst he
      rw [if_neg (show ¬(("" : String) ≠ "") from by decide),
        if_neg (show (none : Option String) ≠ some "default" from by decide),
        if_neg hd]
      rfl
    · rw [if_pos he, if_neg (show some alias' ≠ some "default" from by simp [hd]),
        if_neg hd]
      rfl

/-- C9 (witness for the amended theorem): applied to a fresh alias `mine`
on the empty service. -/
theorem c9_create_collection_amended_witness :
    ∃ c, assoc (Service.create_collection { aliases := [], collections := [] }
            { collections := [], items := [], sessions := [] }
            { label := "x" } "mine" "idw" 3).2.1
          (Service.create_collection { aliases := [], collections := [] }
            { collections := [], items := [], sessions := [] }
            { label := "x" } "mine" "idw" 3).1.2.collections = some c ∧
      c.locked = true ∧
      c.label = (if ("mine" : String) = "default" then "default"
                 else ({ label := "x" } : CollectionReadWriteProperties).label) :=
  c9_create_collection_amended { aliases := [], collections := [] }
    { collections := [], items := [], sessions := [] }
    { label := "x" } "mine" "idw" 3 (Or.inr rfl) rfl

/-- C10: `Item::get_secret` with a live session at the given path returns
the encoded secret for every value of the item's `locked` flag and for
every state of the collection registry (including one where the parent
collection is locked or absent): it never fails with `IsLocked`. -/
theorem c10_get_secret_ignores_locked_flags (aesEnc : AesBlockFn) (w : World)
    (it : Item) (session_path : Path) (s : Session)
    (h : assoc session_path w.sessions = some s) :
    ∀ (lk : Bool) (cols : List (Path × Collection)) (its : List (Path × Item)),
      Item.get_secret aesEnc { w with collections := cols, items := its }
          { it with locked := lk } session_path =
        .ok (Item.get_secret_with_session aesEnc { it with locked := lk } s) := by
  intro lk cols its
  simp only [Item.get_secret]
  rw [show ({ w with collections := cols, items := its } : World).sessions = w.sessions
    from rfl, h]

/-- C10 (witness): a locked item in a world whose collection registry is
empty still yields its secret through a live plain session. -/
theorem c10_get_secret_ignores_locked_flags_witness :
    Item.get_secret idCipher
        { collections := [], items := [],
          sessions := [("/org/freedesktop/secrets/session/s4", exSessionC4)] }
        { exItemC4 with locked := true } "/org/freedesktop/secrets/session/s4" =
      .ok (Item.get_secret_with_session idCipher { exItemC4 with locked := true }
        exSessionC4) :=
  c10_get_secret_ignores_locked_flags idCipher
    { collections := [], items := [],
      sessions := [("/org/freedesktop/secrets/session/s4", exSessionC4)] }
    exItemC4 "/org/freedesktop/secrets/session/s4" exSessionC4 rfl true [] []

theorem xorBytes_length (a b : List Nat) :
    (xorBytes a b).length = min a.length b.length := by
  simp [xorBytes]

theorem xorBytes_cancel : ∀ (a b : List Nat), a.length = b.length →
    xorBytes a (xorBytes a b) = b := by
  intro a
  induction a with
  | nil => intro b h; cases b <;> simp_all [xorBytes]
  | cons x a ih =>
    intro b h
    cases b with
    | nil => simp at h
    | cons y b =>
      simp only [xorBytes, List.zipWith_cons_cons] at ih ⊢
      have hx : Nat.xor x (Nat.xor x y) = y := Nat.xor_cancel_left x y
      rw [hx, ih b (by simpa using h)]

theorem pkcs7Unpad_pkcs7Pad (p : List Nat) : pkcs7Unpad (pkcs7Pad p) = some p := by
  have hk1 : 1 ≤ 16 - p.length % 16 := by omega
  have hk16 : 16 - p.length % 16 ≤ 16 := by omega
  set k := 16 - p.length % 16 with hk
  have hrep : (List.replicate k k).getLast? = some k := by
    cases hn : k with
    | zero => omega
    | succ m =>
      rw [List.getLast?_eq_getLast _ (by simp), List.getLast_replicate]
  have hlast : (pkcs7Pad p).getLast? = some k := by
    rw [pkcs7Pad]
    simp only [← hk]
    rw [List.getLast?_append, hrep]
    rfl
  have hlen : (pkcs7Pad p).length = p.length + k := by
    simp [pkcs7Pad, ← hk]
  have hsub : (pkcs7Pad p).length - k = p.length := by rw [hlen]; omega
  have hdrop : (pkcs7Pad p).drop ((pkcs7Pad p).length - k) = List.replicate k k := by
    rw [hsub, pkcs7Pad]
    simp only [← hk]
    exact List.drop_left p _
  have htake : (pkcs7Pad p).take ((pkcs7Pad p).length - k) = p := by
    rw [hsub, pkcs7Pad]
    simp only [← hk]
    exact List.take_left p _
  have hcond : 1 ≤ k ∧ k ≤ 16 ∧ k ≤ (pkcs7Pad p).length ∧
      ((pkcs7Pad p).drop ((pkcs7Pad p).length - k)).all (fun b => b = k) = true := by
    refine ⟨hk1, hk16, by rw [hlen]; omega, ?_⟩
    rw [hdrop]
    simp only [List.all_eq_true, decide_eq_true_eq]
    intro b hb
    exact List.eq_of_mem_replicate hb
  rw [pkcs7Unpad, hlast]
  show (if 1 ≤ k ∧ k ≤ 16 ∧ k ≤ (pkcs7Pad p).length ∧
      ((pkcs7Pad p).drop ((pkcs7Pad p).length - k)).all (fun b => b = k)
    then some ((pkcs7Pad p).take ((pkcs7Pad p).length - k)) else none) = some p
  rw [if_pos hcond, htake]

theorem chunks16Fuel_flatten : ∀ (f : Nat) (l : List Nat), l.length ≤ f →
    (chunks16Fuel f l).flatten = l := by
  intro f
  induction f with
  | zero =>
    intro l h
    have : l = [] := by
      cases l with
      | nil => rfl
      | cons a t => simp at h
    subst this
    rfl
  | succ f ih =>
    intro l h
    cases l with
    | nil => rfl
    | cons b t =>
      simp only [List.length_cons] at h
      show ((b :: t).take 16 :: chunks16Fuel f ((b :: t).drop 16)).flatten = b :: t
      rw [List.flatten_cons]
      rw [ih _ (by simp only [List.length_drop, List.length_cons]; omega)]
      exact List.take_append_drop 16 (b :: t)

theorem chunks16Fuel_blocks : ∀ (f : Nat) (l : List Nat), l.length ≤ f →
    l.length % 16 = 0 → ∀ b ∈ chunks16Fuel f l, b.length = 16 := by
  intro f
  induction f with
  | zero =>
    intro l h _ b hb
    have : l = [] := by
      cases l with
      | nil => rfl
      | cons a t => simp at h
    subst this
    simp [chunks16Fuel] at hb
  | succ f ih =>
    intro l h hm b hb
    cases l with
    | nil => simp [chunks16Fuel] at hb
    | cons x t =>
      simp only [List.length_cons] at h hm
      have h16 : 16 ≤ t.length + 1 := by omega
      rw [show chunks16Fuel (f + 1) (x :: t) =
        (x :: t).take 16 :: chunks16Fuel f ((x :: t).drop 16) from rfl] at hb
      rcases List.mem_cons.mp hb with hbe | hbm
      · subst hbe
        simp only [List.length_take, List.length_cons]
        omega
      · exact ih _ (by simp only [List.length_drop, List.length_cons]; omega)
          (by simp only [List.length_drop, List.length_cons]; omega) b hbm

theorem chunks16Fuel_of_blocks : ∀ (bs : List (List Nat)) (f : Nat),
    (∀ b ∈ bs, b.length = 16) → bs.flatten.length ≤ f →
    chunks16Fuel f bs.flatten = bs := by
  intro bs
  induction bs with
  | nil =>
    intro f _ _
    rw [List.flatten_nil]
    cases f <;> rfl
  | cons b bs ih =>
    intro f hb hf
    have hbl : b.length = 16 := hb b (by simp)
    have hfl : (b :: bs).flatten.length = 16 + bs.flatten.length := by
      simp [List.flatten_cons, hbl]
    obtain ⟨f2, rfl⟩ : ∃ f2, f = f2 + 1 := ⟨f - 1, by omega⟩
    cases hbc : b with
    | nil => rw [hbc] at hbl; simp at hbl
    | cons x xs =>
      subst hbc
      rw [List.flatten_cons, List.cons_append]
      show ((x :: xs ++ bs.flatten).take 16 :: chunks16Fuel f2 ((x :: xs ++ bs.flatten).drop 16)) = _
      rw [show (16 : Nat) = (x :: xs).length from hbl.symm]
      rw [List.take_left, List.drop_left]
      rw [ih f2 (fun b hb2 => hb b (by simp [hb2])) (by omega)]

theorem cbcEncBlocks_length_eq (enc : List Nat → List Nat) :
    ∀ (bs : List (List Nat)) (prev : List Nat),
      (cbcEncBlocks enc prev bs).length = bs.length := by
  intro bs
  induction bs with
  | nil => intro prev; rfl
  | cons b bs ih => intro prev; simp [cbcEncBlocks, ih]

theorem cbcEncBlocks_blocks (enc : List Nat → List Nat)
    (henc : ∀ b : List Nat, b.length = 16 → (enc b).length = 16) :
    ∀ (bs : List (List Nat)) (prev : List Nat), prev.length = 16 →
      (∀ b ∈ bs, b.length = 16) →
      ∀ cb ∈ cbcEncBlocks enc prev bs, cb.length = 16 := by
  intro bs
  induction bs with
  | nil => intro prev _ _ cb hcb; simp [cbcEncBlocks] at hcb
  | cons b bs ih =>
    intro prev hp hb cb hcb
    have hbl : b.length = 16 := hb b (by simp)
    have hx : (xorBytes prev b).length = 16 := by
      rw [xorBytes_length, hp, hbl]
      exact Nat.min_self 16
    have hc : (enc (xorBytes prev b)).length = 16 := henc _ hx
    simp only [cbcEncBlocks, List.mem_cons] at hcb
    rcases hcb with hce | hcm
    · rw [hce]; exact hc
    · exact ih (enc (xorBytes prev b)) hc (fun x hx2 => hb x (by simp [hx2])) cb hcm

theorem cbcDecBlocks_cbcEncBlocks (enc dec : List Nat → List Nat)
    (hinv : ∀ b : List Nat, b.length = 16 → dec (enc b) = b)
    (henc : ∀ b : List Nat, b.length = 16 → (enc b).length = 16) :
    ∀ (bs : List (List Nat)) (prev : List Nat), prev.length = 16 →
      (∀ b ∈ bs, b.length = 16) →
      cbcDecBlocks dec prev (cbcEncBlocks enc prev bs) = bs := by
  intro bs
  induction bs with
  | nil => intro prev _ _; rfl
  | cons b bs ih =>
    intro prev hp hb
    have hbl : b.length = 16 := hb b (by simp)
    have hx : (xorBytes prev b).length = 16 := by
      rw [xorBytes_length, hp, hbl]
      exact Nat.min_self 16
    simp only [cbcEncBlocks, cbcDecBlocks]
    rw [hinv _ hx]
    rw [xorBytes_cancel prev b (by rw [hp, hbl])]
    rw [ih (enc (xorBytes prev b)) (henc _ hx) (fun x hx2 => hb x (by simp [hx2]))]

theorem flatten_length_of_blocks : ∀ (bs : List (List Nat)),
    (∀ b ∈ bs, b.length = 16) → bs.flatten.length = 16 * bs.length := by
  intro bs
  induction bs with
  | nil => intro _; rfl
  | cons b bs ih =>
    intro hb
    rw [List.flatten_cons, List.length_append, hb b (by simp),
      ih (fun x hx => hb x (by simp [hx]))]
    simp only [List.length_cons]
    ring

theorem pkcs7Pad_length_mod (p : List Nat) : (pkcs7Pad p).length % 16 = 0 := by
  simp only [pkcs7Pad, List.length_append, List.length_replicate]
  omega

theorem pkcs7Pad_length_pos (p : List Nat) : 0 < (pkcs7Pad p).length := by
  simp only [pkcs7Pad, List.length_append, List.length_replicate]
  omega

theorem cbcDecrypt_cbcEncrypt (enc dec : List Nat → List Nat)
    (hinv : ∀ b : List Nat, b.length = 16 → dec (enc b) = b)
    (henc : ∀ b : List Nat, b.length = 16 → (enc b).length = 16)
    (iv : List Nat) (hiv : iv.length = 16) (p : List Nat) :
    cbcDecrypt dec iv (cbcEncrypt enc iv p) = some p := by
  have hpm := pkcs7Pad_length_mod p
  have hpp := pkcs7Pad_length_pos p
  have hblocks : ∀ b ∈ chunks16 (pkcs7Pad p), b.length = 16 :=
    chunks16Fuel_blocks _ _ le_rfl hpm
  have hcb : ∀ cb ∈ cbcEncBlocks enc iv (chunks16 (pkcs7Pad p)), cb.length = 16 :=
    cbcEncBlocks_blocks enc henc _ iv hiv hblocks
  have hflat : (cbcEncBlocks enc iv (chunks16 (pkcs7Pad p))).flatten.length =
      16 * (cbcEncBlocks enc iv (chunks16 (pkcs7Pad p))).length :=
    flatten_length_of_blocks _ hcb
  have hchne : chunks16 (pkcs7Pad p) ≠ [] := by
    intro hx
    have h2 := chunks16Fuel_flatten (pkcs7Pad p).length (pkcs7Pad p) le_rfl
    rw [show chunks16Fuel (pkcs7Pad p).length (pkcs7Pad p) = chunks16 (pkcs7Pad p)
      from rfl, hx, List.flatten_nil] at h2
    have h3 : (pkcs7Pad p).length = 0 := by rw [← h2]; rfl
    omega
  have hebne : (cbcEncBlocks enc iv (chunks16 (pkcs7Pad p))).length ≠ 0 := by
    rw [cbcEncBlocks_length_eq]
    simpa [List.length_eq_zero] using hchne
  rw [cbcEncrypt, cbcDecrypt, if_pos ⟨by rw [hflat]; omega, by rw [hflat]; omega⟩]
  rw [show chunks16 (cbcEncBlocks enc iv (chunks16 (pkcs7Pad p))).flatten =
      chunks16Fuel (cbcEncBlocks enc iv (chunks16 (pkcs7Pad p))).flatten.length
        (cbcEncBlocks enc iv (chunks16 (pkcs7Pad p))).flatten from rfl]
  rw [chunks16Fuel_of_blocks _ _ hcb le_rfl]
  rw [cbcDecBlocks_cbcEncBlocks enc dec hinv henc _ iv hiv hblocks]
  rw [show (chunks16 (pkcs7Pad p)) = chunks16Fuel (pkcs7Pad p).length (pkcs7Pad p)
    from rfl]
  rw [chunks16Fuel_flatten _ _ le_rfl]
  exact pkcs7Unpad_pkcs7Pad p


/-- C6: for every session algorithm — `Plain`, or `Dh` with any key whose
block cipher satisfies the block-cipher laws (the external AES-128
instance does) — decrypting the result of `encrypt` with the returned IV
yields the original plaintext; consequently a secret value V accepted and
stored by `Item::new` (the `CreateItem` decode; storage requires V to be
valid UTF-8, since items store a Rust `String`) and read back through
`Item::get_secret_with_session` on the same session decrypts to V. -/
theorem c6_secret_roundtrip (aesEnc aesDec : AesBlockFn) (key : List Nat)
    (hinv : ∀ b : List Nat, b.length = 16 → aesDec key (aesEnc key b) = b)
    (hlen : ∀ b : List Nat, b.length = 16 → (aesEnc key b).length = 16) :
    (∀ (alg : Algorithm) (V : List Nat), alg = .Plain ∨ alg = .Dh key →
        Algorithm.decrypt aesDec alg (Algorithm.encrypt aesEnc alg V).1
          (Algorithm.encrypt aesEnc alg V).2 = some V) ∧
    (∀ (w : World) (session_path : Path) (s : Session) (id label : String)
        (attributes : List (String × String)) (c : Collection) (now : Nat)
        (V : List Nat) (content_type : String),
      assoc session_path w.sessions = some s →
      (s.algorithm = .Plain ∨ s.algorithm = .Dh key) →
      validUtf8 V = true →
      ∃ it, Item.new aesDec w id
          { session := session_path
            value := (s.algorithm.encrypt aesEnc V).1
            parameters := (s.algorithm.encrypt aesEnc V).2
            content_type := content_type } label attributes c now = .ok it ∧
        Algorithm.decrypt aesDec s.algorithm
          (Item.get_secret_with_session aesEnc it s).value
          (Item.get_secret_with_session aesEnc it s).parameters = some V) := by
  have hround : ∀ V : List Nat,
      cbcDecrypt (aesDec key) fixedIV (cbcEncrypt (aesEnc key) fixedIV V) = some V :=
    fun V => cbcDecrypt_cbcEncrypt (aesEnc key) (aesDec key) hinv hlen fixedIV
      (by simp [fixedIV]) V
  constructor
  · intro alg V halg
    rcases halg with h | h <;> subst h
    · rfl
    · exact hround V
  · intro w session_path s id label attributes c now V content_type hsess halg hV
    rcases halg with hP | hD
    · refine ⟨Item.mk attributes now id label true now c.get_object_path V, ?_, ?_⟩
      · simp only [Item.new, hsess]
        simp [decodeSecretValue, Session.is_encrypted, hP, Algorithm.encrypt, hV]
      · simp [Item.get_secret_with_session, Session.is_encrypted, hP, Algorithm.decrypt]
    · refine ⟨Item.mk attributes now id label true now c.get_object_path V, ?_, ?_⟩
      · simp only [Item.new, hsess]
        simp [decodeSecretValue, Session.is_encrypted, hD, Algorithm.encrypt,
          Algorithm.decrypt, hround, hV]
      · simp [Item.get_secret_with_session, Session.is_encrypted, hD,
          Algorithm.encrypt, Algorithm.decrypt, hround]


/-- C6 (witness): the round trip evaluated on the Dh session with the
identity block cipher, the all-zero key and the plaintext "hi". -/
theorem c6_secret_roundtrip_witness :
    Algorithm.decrypt idCipher (.Dh zeroKey)
        (Algorithm.encrypt idCipher (.Dh zeroKey) [104, 105]).1
        (Algorithm.encrypt idCipher (.Dh zeroKey) [104, 105]).2 = some [104, 105] ∧
    ∃ it, Item.new idCipher exWorldC4 "i6"
        { session := "/org/freedesktop/secrets/session/s4"
          value := (exSessionC4.algorithm.encrypt idCipher [104, 105]).1
          parameters := (exSessionC4.algorithm.encrypt idCipher [104, 105]).2
          content_type := "text/plain; charset=utf8" } "L" [] exCollectionC4 0 = .ok it ∧
      Algorithm.decrypt idCipher exSessionC4.algorithm
        (Item.get_secret_with_session idCipher it exSessionC4).value
        (Item.get_secret_with_session idCipher it exSessionC4).parameters =
          some [104, 105] :=
  ⟨(c6_secret_roundtrip idCipher idCipher zeroKey (fun _ _ => rfl) (fun _ hb => hb)).1
      (.Dh zeroKey) [104, 105] (Or.inr rfl),
   (c6_secret_roundtrip idCipher idCipher zeroKey (fun _ _ => rfl) (fun _ hb => hb)).2
      exWorldC4 "/org/freedesktop/secrets/session/s4" exSessionC4 "i6" "L" []
      exCollectionC4 0 [104, 105] "text/plain; charset=utf8" rfl (Or.inr rfl)
      (by decide)⟩

end SecretService
